import Mathlib

/-!
# notify: the ntfy and telegram services

A shallow embedding of `service/ntfy/ntfy.go`, `service/ntfy/ntfy_config.go` and
`service/telegram/telegram.go`.

* A Go `*Service` that is mutated in place becomes a value of a `Service` structure that is
  passed in and returned; an option `func(*Service)` becomes a function from the service
  to the service it leaves (in package ntfy, where options can panic, to that or a panic).
* `New` returns `(*Service, error)`; here it returns an `Except` value whose `.ok s` is the
  return of `s` with a nil error.
* A run-time panic is a value of `Panic`. Code that can panic returns `Except Panic _`; a
  function that panics does not return, so nothing is said of the state it leaves behind.
* Handles of external libraries (`*http.Client`, `*telegram.BotAPI`, `onelog.Logger`) are
  small records; what the libraries do with them is outside the embedding. Log records go to
  the logger's sink and leave the service unchanged. In package telegram, whose `New`
  installs a logger, log statements have no counterpart here; in package ntfy, whose `New`
  installs none, a log statement is the step `Service.logDebug`, which panics on the nil
  logger.
* Slices are lists, Go `int` and `int64` are `Int` (no arithmetic is done on them).
* The read-write mutex of the telegram service is left out: every operation is modelled as
  it runs while holding the lock.
-/

/-! ## External handles -/

/-- Handle of a `*http.Client`. -/
structure HttpClient where
  id : Nat
deriving DecidableEq, Repr

/-- The value `http.DefaultClient`. -/
def http.DefaultClient : HttpClient := ⟨0⟩

/-- An `onelog.Logger`: the key/value context it carries. -/
structure Logger where
  context : List (String × String)
deriving DecidableEq, Repr

/-- The method `Logger.With(key, value)`: a logger whose context is extended by one pair. -/
def Logger.With (l : Logger) (key value : String) : Logger :=
  ⟨l.context ++ [(key, value)]⟩

/-- The value of `nopadapter.NewAdapter()`, the no-op logger. -/
def nopadapter.NewAdapter : Logger := ⟨[]⟩

/-- A run-time panic: the call of a method on a nil interface value, or any other. -/
inductive Panic where
  | nilDereference
  | other (msg : String)
deriving DecidableEq, Repr

/-- A value of the interface type `onelog.Logger` as a field or an argument holds it: the
nil interface, or a logger. -/
inductive LoggerValue where
  | nil
  | of (logger : Logger)
deriving DecidableEq, Repr

/-- The call `logger.With(key, value)` on an interface value: a panic on nil. -/
def LoggerValue.With : LoggerValue → String → String → Except Panic LoggerValue
  | .nil, _, _ => .error .nilDereference
  | .of l, key, value => .ok (.of (l.With key value))

/-- The call `logger.Debug()` on an interface value, with the chain that writes the record:
a panic on nil, and no effect on the program state otherwise. -/
def LoggerValue.Debug : LoggerValue → Except Panic Unit
  | .nil => .error .nilDereference
  | .of _ => .ok ()

/-! ## Package ntfy -/

namespace ntfy

/-- Go `type Priority int`. -/
abbrev Priority := Int

/-- Go `type Mode string`. -/
abbrev Mode := String

/-- First constant of the block `PriorityMin Priority = iota + 1`; `iota` is 0 here. -/
def PriorityMin : Priority := 0 + 1
/-- Second constant of the block, `iota` is 1. -/
def PriorityLow : Priority := 1 + 1
/-- Third constant of the block, `iota` is 2. -/
def PriorityDefault : Priority := 2 + 1
/-- Fourth constant of the block, `iota` is 3. -/
def PriorityHigh : Priority := 3 + 1
/-- Fifth constant of the block, `iota` is 4. -/
def PriorityMax : Priority := 4 + 1

def ModeText : Mode := "text/plain"
def ModeMarkdown : Mode := "text/markdown"
def defaultAPIBaseURL : String := "https://ntfy.sh/"

/-- The type `SendConfig`. Its declaration is not in the sources; the renderers read the two
fields `subject` and `message`. -/
structure SendConfig where
  subject : String
  message : String
deriving DecidableEq, Repr

/-- The function `defaultMessageRenderer` of `ntfy.go`: it returns `conf.message`. -/
def defaultMessageRenderer (conf : SendConfig) : String :=
  conf.message

/-- The struct `Service` of `ntfy.go`. The last three fields are not declared there but are
assigned by `WithLogger`, `WithDryRun` and `WithContinueOnErr` in `ntfy_config.go`: `logger`
has the interface type of the argument of `WithLogger`, the other two are `bool`. -/
structure Service where
  client : HttpClient
  topics : List String
  name : String
  token : String
  renderMessage : SendConfig → String
  apiBaseURL : String
  parseMode : Mode
  priority : Priority
  tags : List String
  icon : String
  delay : String
  clickAction : String
  logger : LoggerValue
  dryRun : Bool
  continueOnErr : Bool

/-- Go `type Option = func(*Service)`. The call of an option returns the service it leaves,
or panics. A nil function value is the option that panics on every service. -/
abbrev Option := Service → Except Panic Service

/-- The method `Service.Name`. -/
def Service.Name (s : Service) : String :=
  s.name

/-- The method `Service.AddRecipients`: `s.topics = append(s.topics, topics...)`. -/
def Service.AddRecipients (s : Service) (topics : List String) : Service :=
  { s with topics := s.topics ++ topics }

/-- The statement `s.logger.Debug()...Msg(...)` at the end of every option: a panic when
`s.logger` is nil, and otherwise the service is left as it is. -/
def Service.logDebug (s : Service) : Except Panic Service :=
  match s.logger.Debug with
  | .error p => .error p
  | .ok _ => .ok s

def WithClient (client : HttpClient) : Option :=
  fun s => Service.logDebug { s with client := client }

/-- The option `WithLogger`: the argument is first extended with the pair
`("service", s.Name())`, which panics on a nil argument, then stored, then used to log. -/
def WithLogger (logger : LoggerValue) : Option :=
  fun s =>
    match logger.With "service" s.Name with
    | .error p => .error p
    | .ok logger => Service.logDebug { s with logger := logger }

def WithRecipients (topics : List String) : Option :=
  fun s => Service.logDebug { s with topics := topics }

def WithName (name : String) : Option :=
  fun s => Service.logDebug { s with name := name }

def WithMessageRenderer (builder : SendConfig → String) : Option :=
  fun s => Service.logDebug { s with renderMessage := builder }

/-- The option `WithDryRun`. The field `dryRun` it assigns is not declared in `ntfy.go`. -/
def WithDryRun (dryRun : Bool) : Option :=
  fun s => Service.logDebug { s with dryRun := dryRun }

/-- The option `WithContinueOnErr`. The field `continueOnErr` it assigns is not declared in
`ntfy.go`. -/
def WithContinueOnErr (continueOnErr : Bool) : Option :=
  fun s => Service.logDebug { s with continueOnErr := continueOnErr }

def WithAPIBaseURL (url : String) : Option :=
  fun s => Service.logDebug { s with apiBaseURL := url }

def WithParseMode (mode : Mode) : Option :=
  fun s => Service.logDebug { s with parseMode := mode }

def WithPriority (priority : Priority) : Option :=
  fun s => Service.logDebug { s with priority := priority }

def WithTags (tags : List String) : Option :=
  fun s => Service.logDebug { s with tags := tags }

def WithIcon (icon : String) : Option :=
  fun s => Service.logDebug { s with icon := icon }

def WithDelay (delay : String) : Option :=
  fun s => Service.logDebug { s with delay := delay }

def WithClickAction (action : String) : Option :=
  fun s => Service.logDebug { s with clickAction := action }

/-- The loop `for _, opt := range opts { opt(s) }` of `New`: a panic of an option ends it. -/
def applyOpts : List Option → Service → Except Panic Service
  | [], s => .ok s
  | opt :: rest, s =>
    match opt s with
    | .error p => .error p
    | .ok s => applyOpts rest s

/-- The function `New` of `ntfy.go`. The fields the literal does not mention have Go's zero
value: empty slices, empty strings, `false`, and the nil interface for the logger. The one
return statement is `return s, nil`, here `.ok s`; a panic of an option is passed on. -/
def New (token : String) (opts : List Option) : Except Panic Service :=
  let s : Service :=
    { client := http.DefaultClient
      name := "ntfy"
      token := token
      renderMessage := defaultMessageRenderer
      apiBaseURL := defaultAPIBaseURL
      parseMode := ModeText
      priority := PriorityDefault
      topics := []
      tags := []
      icon := ""
      delay := ""
      clickAction := ""
      logger := .nil
      dryRun := false
      continueOnErr := false }
  match applyOpts opts s with
  | .error p => .error p
  | .ok s => .ok s

/-- The value of the composite literal of `New`, the service before the options run. -/
def newLiteral (token : String) : Service :=
  { client := http.DefaultClient
    name := "ntfy"
    token := token
    renderMessage := defaultMessageRenderer
    apiBaseURL := defaultAPIBaseURL
    parseMode := ModeText
    priority := PriorityDefault
    topics := []
    tags := []
    icon := ""
    delay := ""
    clickAction := ""
    logger := .nil
    dryRun := false
    continueOnErr := false }

/-- A call of one of the option constructors exported by `ntfy_config.go`. -/
inductive OptionCall where
  | withClient (client : HttpClient)
  | withLogger (logger : LoggerValue)
  | withRecipients (topics : List String)
  | withName (name : String)
  | withMessageRenderer (builder : SendConfig → String)
  | withDryRun (dryRun : Bool)
  | withContinueOnErr (continueOnErr : Bool)
  | withAPIBaseURL (url : String)
  | withParseMode (mode : Mode)
  | withPriority (priority : Priority)
  | withTags (tags : List String)
  | withIcon (icon : String)
  | withDelay (delay : String)
  | withClickAction (action : String)

/-- The option a constructor call evaluates to. -/
def OptionCall.toOption : OptionCall → Option
  | .withClient c => WithClient c
  | .withLogger l => WithLogger l
  | .withRecipients ts => WithRecipients ts
  | .withName n => WithName n
  | .withMessageRenderer f => WithMessageRenderer f
  | .withDryRun b => WithDryRun b
  | .withContinueOnErr b => WithContinueOnErr b
  | .withAPIBaseURL u => WithAPIBaseURL u
  | .withParseMode m => WithParseMode m
  | .withPriority p => WithPriority p
  | .withTags ts => WithTags ts
  | .withIcon i => WithIcon i
  | .withDelay d => WithDelay d
  | .withClickAction a => WithClickAction a

/-- The priority a constructor call passes to `WithPriority`, if it is such a call. -/
def OptionCall.priorityArg : OptionCall → List Priority
  | .withPriority p => [p]
  | _ => []

/-- The name a constructor call passes to `WithName`, if it is such a call. -/
def OptionCall.nameArg : OptionCall → List String
  | .withName n => [n]
  | _ => []

/-- Whether the call is `WithLogger` with a logger that is not nil. -/
def OptionCall.setsLogger : OptionCall → Bool
  | .withLogger (.of _) => true
  | _ => false

/-- Whether the call is `WithLogger` with the nil logger. -/
def OptionCall.isNilLogger : OptionCall → Bool
  | .withLogger .nil => true
  | _ => false

/-- Whether a list of constructor calls is empty, or starts with a `WithLogger` of a logger
that is not nil and has no `WithLogger` of nil after it. -/
def loggerFirst : List OptionCall → Bool
  | [] => true
  | c :: rest => c.setsLogger && rest.all (fun c => !c.isNilLogger)

end ntfy

/-! ## Package telegram -/

/-- A Go `strings.Builder`: the text written so far. -/
structure strings.Builder where
  buf : String
deriving DecidableEq, Repr

/-- The zero value of a `strings.Builder` (`var builder strings.Builder`). -/
def strings.Builder.zero : strings.Builder := ⟨""⟩

/-- The method `WriteString`: the text is added at the end of the buffer. -/
def strings.Builder.WriteString (b : strings.Builder) (s : String) : strings.Builder :=
  ⟨b.buf ++ s⟩

/-- The method `String`: the accumulated text. -/
def strings.Builder.String (b : strings.Builder) : String :=
  b.buf

namespace telegram

/-- Handle of a `*telegram.BotAPI` of the bot library. -/
structure BotAPI where
  id : Nat
deriving DecidableEq, Repr

/-- The constant `telegram.ModeHTML` of the bot library. -/
def ModeHTML : String := "HTML"
/-- The constant `telegram.ModeMarkdown` of the bot library. -/
def ModeMarkdown : String := "Markdown"

/-- The type `SendConfig`. Its declaration is not in the sources; the renderer reads the two
fields `Subject` and `Message`. -/
structure SendConfig where
  Subject : String
  Message : String
deriving DecidableEq, Repr

/-- The function `defaultMessageRenderer` of `telegram.go`. -/
def defaultMessageRenderer (conf : SendConfig) : String :=
  let builder := strings.Builder.zero
  let builder := builder.WriteString conf.Subject
  let builder := builder.WriteString "\n\n"
  let builder := builder.WriteString conf.Message
  builder.String

/-- The struct `Service` of `telegram.go`, without its mutex. -/
structure Service where
  client : BotAPI
  name : String
  logger : Logger
  renderMessage : SendConfig → String
  dryRun : Bool
  continueOnErr : Bool
  chatIDs : List Int
  parseMode : String

/-- The option type `func(*Service)`; its declaration is not in the sources. -/
abbrev Option := Service → Service

/-- The method `applyOptions`: the options run in argument order on the service. -/
def Service.applyOptions : Service → List Option → Service
  | s, [] => s
  | s, opt :: rest => Service.applyOptions (opt s) rest

/-- The function `New` of `telegram.go`. `NewBotAPI` is the constructor of the bot library
and `asNotifyError` the error conversion of the package; both are parameters. The fields the
literal does not mention have Go's zero value. -/
def New {BotErr NotifyErr : Type} (NewBotAPI : String → Except BotErr BotAPI)
    (asNotifyError : BotErr → NotifyErr) (token : String) (opts : List Option) :
    Except NotifyErr Service :=
  match NewBotAPI token with
  | .error err => .error (asNotifyError err)
  | .ok client =>
    let s : Service :=
      { client := client
        name := "telegram"
        logger := nopadapter.NewAdapter
        renderMessage := defaultMessageRenderer
        parseMode := ModeMarkdown
        dryRun := false
        continueOnErr := false
        chatIDs := [] }
    let s := s.applyOptions opts
    .ok s

/-- The method `Service.Name`. -/
def Service.Name (s : Service) : String :=
  s.name

/-- The method `Service.AddRecipients`: `s.chatIDs = append(s.chatIDs, chatIDs...)`. -/
def Service.AddRecipients (s : Service) (chatIDs : List Int) : Service :=
  { s with chatIDs := s.chatIDs ++ chatIDs }

end telegram

/-! ## The dispatcher

Neither `Send` nor the per-recipient send of a backend is in the sources. The definitions of
this section follow §3, §4.1, §4.2 and §4.3 of the specification. -/

/-- Modelled from the spec: the backend capability `sendOne(recipient, renderedText) -> error`
of §4.2, which no source file contains. The adapter owns transport state `σ`; a call gets the
current state and returns the next state and the error, `none` standing for success. -/
structure BackendAdapter (σ R E : Type) where
  sendOne : σ → R → String → σ × Option E

/-- Modelled from the spec: the `DispatchOutcome` of §3, which no source file contains:
success, or a failure carrying the ordered list of failed recipients with their errors. -/
inductive DispatchOutcome (R E : Type) where
  | success
  | failure (errs : List (R × E))
deriving DecidableEq, Repr

/-- Modelled from the spec: what one dispatch of §4.1 leaves behind (no source file contains
the dispatcher): the adapter state, the calls of `sendOne` in the order they were made, each
with its recipient and text, and the outcome. -/
structure DispatchRun (σ R E : Type) where
  state : σ
  calls : List (R × String)
  outcome : DispatchOutcome R E
deriving DecidableEq, Repr

/-- Modelled from the spec: step 2 of the dispatcher of §4.1, missing from the sources: under
dry run the recipients are iterated without invoking the adapter, each being trivially
successful. -/
def dryRunLoop {σ R E : Type} : List R → σ → List (R × String) → DispatchRun σ R E
  | [], st, calls => ⟨st, calls, .success⟩
  | _ :: rest, st, calls => dryRunLoop rest st calls

/-- Modelled from the spec: steps 3 to 5 of the dispatcher of §4.1, missing from the sources.
The recipients are taken in registered order; `sendOne` is invoked on each; a failure is
recorded; without `continueOnErr` the loop stops there with a failure holding only that
error; after the loop the recorded errors, if any, make a failure, else the outcome is
success. -/
def dispatchLoop {σ R E : Type} (adapter : BackendAdapter σ R E) (renderedText : String)
    (continueOnErr : Bool) :
    List R → σ → List (R × String) → List (R × E) → DispatchRun σ R E
  | [], st, calls, errs =>
    match errs with
    | [] => ⟨st, calls, .success⟩
    | _ :: _ => ⟨st, calls, .failure errs⟩
  | r :: rest, st, calls, errs =>
    match adapter.sendOne st r renderedText with
    | (st1, none) => dispatchLoop adapter renderedText continueOnErr rest st1
        (calls ++ [(r, renderedText)]) errs
    | (st1, some e) =>
      if continueOnErr then
        dispatchLoop adapter renderedText continueOnErr rest st1
          (calls ++ [(r, renderedText)]) (errs ++ [(r, e)])
      else
        ⟨st1, calls ++ [(r, renderedText)], .failure [(r, e)]⟩

/-- Modelled from the spec: the contract `dispatch(recipients, renderedText, adapter,
continueOnErr, dryRun)` of §4.1, missing from the sources. Step 1: no recipients, success.
Step 2: dry run. Steps 3 to 5: the loop over the recipients. -/
def dispatch {σ R E : Type} (recipients : List R) (renderedText : String)
    (adapter : BackendAdapter σ R E) (st : σ) (continueOnErr dryRun : Bool) :
    DispatchRun σ R E :=
  match recipients with
  | [] => ⟨st, [], .success⟩
  | _ :: _ =>
    if dryRun then dryRunLoop recipients st []
    else dispatchLoop adapter renderedText continueOnErr recipients st [] []

/-- Modelled from the spec: the `ServiceConfig` of §3, the resolved options a `Send` works
on: the two flags, the renderer, the adapter and the recipient list. -/
structure ServiceConfig (σ R E : Type) where
  dryRun : Bool
  continueOnErr : Bool
  renderMessage : String → String → String
  adapter : BackendAdapter σ R E
  recipients : List R

/-- Modelled from the spec: the operation `Send(subject, message)` of §4.3, which no source
file contains: it renders once and delegates to the dispatcher with the current
configuration. -/
def Send {σ R E : Type} (cfg : ServiceConfig σ R E) (st : σ) (subject message : String) :
    DispatchRun σ R E :=
  let renderedText := cfg.renderMessage subject message
  dispatch cfg.recipients renderedText cfg.adapter st cfg.continueOnErr cfg.dryRun

/-- Modelled from the spec: the configuration a telegram service hands to `Send` (§4.3), the
sources having no `Send`: its flags, its renderer, its chat IDs, and the given adapter. -/
def telegram.Service.config {σ E : Type} (s : telegram.Service)
    (adapter : BackendAdapter σ Int E) : ServiceConfig σ Int E :=
  { dryRun := s.dryRun
    continueOnErr := s.continueOnErr
    renderMessage := fun subject message => s.renderMessage ⟨subject, message⟩
    adapter := adapter
    recipients := s.chatIDs }

/-! ## Vocabulary of the dispatch theorems -/

/-- The adapter state after `sendOne` has been invoked on each recipient of the list in
order. -/
def stateAfter {σ R E : Type} (adapter : BackendAdapter σ R E) (text : String) : σ → List R → σ
  | st, [] => st
  | st, r :: rest => stateAfter adapter text (adapter.sendOne st r text).1 rest

/-- Whether `sendOne`, invoked on each recipient of the list in order, succeeds on all. -/
def allSucceed {σ R E : Type} (adapter : BackendAdapter σ R E) (text : String) :
    σ → List R → Bool
  | _, [] => true
  | st, r :: rest =>
    (adapter.sendOne st r text).2.isNone && allSucceed adapter text (adapter.sendOne st r text).1 rest

/-- The failing recipients with their errors, in order, when `sendOne` is invoked on each
recipient of the list in order. -/
def failuresOf {σ R E : Type} (adapter : BackendAdapter σ R E) (text : String) :
    σ → List R → List (R × E)
  | _, [] => []
  | st, r :: rest =>
    match (adapter.sendOne st r text).2 with
    | none => failuresOf adapter text (adapter.sendOne st r text).1 rest
    | some e => (r, e) :: failuresOf adapter text (adapter.sendOne st r text).1 rest

/-- A test adapter: its state counts the calls made; it fails, with the recipient's name in
the error, exactly on the recipients listed in `bad`. -/
def stubAdapter (bad : List String) : BackendAdapter Nat String String :=
  { sendOne := fun n r _ => (n + 1, if r ∈ bad then some ("rejected " ++ r) else none) }

/-- The recipients and the stub adapter of the dispatch examples, in a configuration whose
renderer is the telegram default renderer. -/
def stubConfig (recipients bad : List String) (continueOnErr dryRun : Bool) :
    ServiceConfig Nat String String :=
  { dryRun := dryRun
    continueOnErr := continueOnErr
    renderMessage := fun subject message => telegram.defaultMessageRenderer ⟨subject, message⟩
    adapter := stubAdapter bad
    recipients := recipients }

/-! ## Lemmas on the option loops -/

theorem telegram.applyOptions_append (a b : List telegram.Option) (s : telegram.Service) :
    s.applyOptions (a ++ b) = (s.applyOptions a).applyOptions b := by
  induction a generalizing s with
  | nil => rfl
  | cons o rest ih => exact ih (o s)

/-- A property of the service that every option of the list preserves is preserved by
`applyOptions`. -/
theorem telegram.applyOptions_invariant (P : telegram.Service → Prop)
    (opts : List telegram.Option) (h : ∀ o ∈ opts, ∀ s, P s → P (o s))
    (s : telegram.Service) (hs : P s) : P (s.applyOptions opts) := by
  induction opts generalizing s with
  | nil => exact hs
  | cons o rest ih =>
    exact ih (fun o1 h1 => h o1 (List.mem_cons_of_mem _ h1)) (o s)
      (h o (List.mem_cons_self _ _) s hs)

/-- When the bot client is created, `New` returns the service literal with the options
applied to it. -/
theorem telegram.New_of_client {BotErr NotifyErr : Type}
    (NewBotAPI : String → Except BotErr telegram.BotAPI) (asNotifyError : BotErr → NotifyErr)
    (token : String) (client : telegram.BotAPI) (opts : List telegram.Option)
    (h : NewBotAPI token = .ok client) :
    telegram.New NewBotAPI asNotifyError token opts =
      .ok (telegram.Service.applyOptions
        { client := client, name := "telegram", logger := nopadapter.NewAdapter,
          renderMessage := telegram.defaultMessageRenderer,
          parseMode := telegram.ModeMarkdown, dryRun := false, continueOnErr := false,
          chatIDs := [] } opts) := by
  simp only [telegram.New, h]

/-! ## Lemmas on the dispatch loops -/

theorem dryRunLoop_eq {σ R E : Type} (rs : List R) (st : σ) (calls : List (R × String)) :
    (dryRunLoop rs st calls : DispatchRun σ R E) = ⟨st, calls, .success⟩ := by
  induction rs with
  | nil => rfl
  | cons r rest ih => exact ih

/-- Fail-fast loop, every call succeeding: all recipients are called, the outcome is
success. -/
theorem dispatchLoop_failfast_ok {σ R E : Type} (adapter : BackendAdapter σ R E)
    (text : String) (rs : List R) (st : σ) (calls : List (R × String))
    (h : allSucceed adapter text st rs = true) :
    dispatchLoop adapter text false rs st calls [] =
      ⟨stateAfter adapter text st rs, calls ++ rs.map (fun r => (r, text)), .success⟩ := by
  induction rs generalizing st calls with
  | nil => simp [dispatchLoop, stateAfter]
  | cons r rest ih =>
    simp only [allSucceed, Bool.and_eq_true, Option.isNone_iff_eq_none] at h
    obtain ⟨h1, h2⟩ := h
    rw [dispatchLoop]
    split
    · next st1 heq =>
      have hst : (adapter.sendOne st r text).1 = st1 := by rw [heq]
      rw [hst] at h2
      rw [ih st1 _ h2]
      simp [stateAfter, hst]
    · next st1 e heq =>
      rw [heq] at h1
      simp at h1

/-- Fail-fast loop, first failure after the recipients `pre`: the calls stop at the failing
recipient and the outcome holds that one error. -/
theorem dispatchLoop_failfast_stop {σ R E : Type} (adapter : BackendAdapter σ R E)
    (text : String) (pre post : List R) (r : R) (e : E) (st : σ) (calls : List (R × String))
    (h : allSucceed adapter text st pre = true)
    (hr : (adapter.sendOne (stateAfter adapter text st pre) r text).2 = some e) :
    dispatchLoop adapter text false (pre ++ r :: post) st calls [] =
      ⟨(adapter.sendOne (stateAfter adapter text st pre) r text).1,
        calls ++ (pre ++ [r]).map (fun x => (x, text)), .failure [(r, e)]⟩ := by
  induction pre generalizing st calls with
  | nil =>
    simp only [stateAfter] at hr
    simp only [List.nil_append, stateAfter]
    rw [dispatchLoop]
    split
    · next st1 heq =>
      rw [heq] at hr
      simp at hr
    · next st1 e1 heq =>
      rw [heq] at hr
      simp only [Option.some.injEq] at hr
      simp [heq, hr]
  | cons x rest ih =>
    simp only [allSucceed, Bool.and_eq_true, Option.isNone_iff_eq_none] at h
    obtain ⟨h1, h2⟩ := h
    simp only [stateAfter] at hr
    simp only [List.cons_append, stateAfter]
    rw [dispatchLoop]
    split
    · next st1 heq =>
      have hst : (adapter.sendOne st x text).1 = st1 := by rw [heq]
      rw [hst] at h2 hr
      rw [ih st1 _ h2 hr]
      simp [hst]
    · next st1 e1 heq =>
      rw [heq] at h1
      simp at h1

/-- Continue-on-error loop: all recipients are called and the recorded errors are the
failing recipients in order. -/
theorem dispatchLoop_continue {σ R E : Type} (adapter : BackendAdapter σ R E)
    (text : String) (rs : List R) (st : σ) (calls : List (R × String)) (errs : List (R × E)) :
    dispatchLoop adapter text true rs st calls errs =
      ⟨stateAfter adapter text st rs, calls ++ rs.map (fun r => (r, text)),
        if (errs ++ failuresOf adapter text st rs).isEmpty then .success
        else .failure (errs ++ failuresOf adapter text st rs)⟩ := by
  induction rs generalizing st calls errs with
  | nil =>
    cases errs <;> simp [dispatchLoop, stateAfter, failuresOf]
  | cons r rest ih =>
    rw [dispatchLoop]
    split
    · next st1 heq =>
      have hf : failuresOf adapter text st (r :: rest) = failuresOf adapter text st1 rest := by
        simp only [failuresOf, heq]
      have hs : stateAfter adapter text st (r :: rest) = stateAfter adapter text st1 rest := by
        simp only [stateAfter, heq]
      rw [ih, hf, hs]
      simp
    · next st1 e heq =>
      have hf : failuresOf adapter text st (r :: rest) =
          (r, e) :: failuresOf adapter text st1 rest := by
        simp only [failuresOf, heq]
      have hs : stateAfter adapter text st (r :: rest) = stateAfter adapter text st1 rest := by
        simp only [stateAfter, heq]
      simp only [if_true]
      rw [ih, hf, hs]
      simp

/-- For an adapter without state, whose reply depends on recipient and text only, the
failing recipients are those a filter over the list selects. -/
theorem failuresOf_stateless {σ R E : Type} (f : R → String → Option E) (text : String)
    (st : σ) (rs : List R) :
    failuresOf (BackendAdapter.mk (fun s r t => (s, f r t))) text st rs =
      rs.filterMap (fun r => (f r text).map (fun e => (r, e))) := by
  induction rs with
  | nil => rfl
  | cons r rest ih =>
    simp only [failuresOf, List.filterMap_cons]
    cases hf : f r text <;> simp [ih]

/-! ## Recipients -/

/-- C1: for both backends, for every service and every argument list, `AddRecipients`
leaves the recipient list equal to the old list followed by the arguments in the given
order: the old list is its beginning, unchanged; the length grows by the number of
arguments; every identifier occurs as often as in the old list and the arguments together
(nothing is deduplicated). -/
theorem C1_add_recipients_appends :
    (∀ (s : ntfy.Service) (ids : List String),
      (s.AddRecipients ids).topics = s.topics ++ ids ∧
      (s.AddRecipients ids).topics.take s.topics.length = s.topics ∧
      (s.AddRecipients ids).topics.length = s.topics.length + ids.length ∧
      ∀ x, (s.AddRecipients ids).topics.count x = s.topics.count x + ids.count x) ∧
    (∀ (s : telegram.Service) (ids : List Int),
      (s.AddRecipients ids).chatIDs = s.chatIDs ++ ids ∧
      (s.AddRecipients ids).chatIDs.take s.chatIDs.length = s.chatIDs ∧
      (s.AddRecipients ids).chatIDs.length = s.chatIDs.length + ids.length ∧
      ∀ x, (s.AddRecipients ids).chatIDs.count x = s.chatIDs.count x + ids.count x) := by
  refine ⟨fun s ids => ⟨rfl, ?_, ?_, ?_⟩, fun s ids => ⟨rfl, ?_, ?_, ?_⟩⟩
  · simp [ntfy.Service.AddRecipients]
  · simp [ntfy.Service.AddRecipients]
  · intro x
    simp [ntfy.Service.AddRecipients]
  · simp [telegram.Service.AddRecipients]
  · simp [telegram.Service.AddRecipients]
  · intro x
    simp [telegram.Service.AddRecipients]

/-! ## Renderers -/

/-- C2: for every subject and message the telegram default renderer returns the subject,
then two line feeds, then the message; and whenever the bot client can be created, a service
built by `New` from options that all leave the renderer as it is renders with it. -/
theorem C2_telegram_default_renderer :
    (∀ subject message : String,
      telegram.defaultMessageRenderer ⟨subject, message⟩ = subject ++ "\n\n" ++ message) ∧
    (∀ (BotErr NotifyErr : Type) (NewBotAPI : String → Except BotErr telegram.BotAPI)
      (asNotifyError : BotErr → NotifyErr) (token : String) (client : telegram.BotAPI)
      (opts : List telegram.Option),
      NewBotAPI token = .ok client →
      (∀ o ∈ opts, ∀ s, (o s).renderMessage = s.renderMessage) →
      ∃ svc, telegram.New NewBotAPI asNotifyError token opts = .ok svc ∧
        ∀ subject message : String,
          svc.renderMessage ⟨subject, message⟩ = subject ++ "\n\n" ++ message) := by
  have hdef : ∀ subject message : String,
      telegram.defaultMessageRenderer ⟨subject, message⟩ = subject ++ "\n\n" ++ message := by
    intro subject message
    simp [telegram.defaultMessageRenderer, strings.Builder.WriteString,
      strings.Builder.String, strings.Builder.zero]
  refine ⟨hdef, ?_⟩
  intro BotErr NotifyErr NewBotAPI asNotifyError token client opts hclient hopts
  refine ⟨_, telegram.New_of_client NewBotAPI asNotifyError token client opts hclient, ?_⟩
  intro subject message
  have hinv := telegram.applyOptions_invariant
    (fun s => s.renderMessage = telegram.defaultMessageRenderer) opts
    (fun o ho s hs => (hopts o ho s).trans hs)
    { client := client, name := "telegram", logger := nopadapter.NewAdapter,
      renderMessage := telegram.defaultMessageRenderer, parseMode := telegram.ModeMarkdown,
      dryRun := false, continueOnErr := false, chatIDs := [] } rfl
  simp only at hinv
  rw [hinv]
  exact hdef subject message

/-- Witness of C2: a bot constructor that accepts every token, and one option that renames
the service. -/
theorem C2_telegram_default_renderer_witness :
    ((fun _ => .ok ⟨7⟩ : String → Except String telegram.BotAPI) "token" = .ok ⟨7⟩) ∧
    (∀ o ∈ [(fun s => { s with name := "bot" } : telegram.Option)],
      ∀ s, (o s).renderMessage = s.renderMessage) ∧
    ∃ svc, telegram.New (fun _ => .ok ⟨7⟩ : String → Except String telegram.BotAPI)
        (fun e => e) "token" [(fun s => { s with name := "bot" } : telegram.Option)] = .ok svc ∧
      ∀ subject message : String,
        svc.renderMessage ⟨subject, message⟩ = subject ++ "\n\n" ++ message :=
  ⟨rfl, by simp, C2_telegram_default_renderer.2 String String (fun _ => .ok ⟨7⟩) (fun e => e)
    "token" ⟨7⟩ [fun s => { s with name := "bot" }] rfl (by simp)⟩

/-- C3, what the code does: for every token, subject and message the renderer of an ntfy
service built by `New` without options returns the message alone; for the subject `Hi` and
the message `there` the rendered text is `there`, in which `Hi` does not occur. -/
theorem C3_ntfy_default_renderer_drops_subject :
    (∀ token subject message : String,
      ∃ svc, ntfy.New token [] = .ok svc ∧ svc.renderMessage ⟨subject, message⟩ = message) ∧
    (∃ svc, ntfy.New "token" [] = .ok svc ∧ svc.renderMessage ⟨"Hi", "there"⟩ = "there" ∧
      ¬ ∃ before after : String,
        svc.renderMessage ⟨"Hi", "there"⟩ = before ++ "Hi" ++ after) := by
  refine ⟨fun token subject message => ⟨_, rfl, rfl⟩, _, rfl, rfl, ?_⟩
  rintro ⟨before, after, h⟩
  have hd := congrArg String.data h
  have hmem : 'H' ∈ (before ++ "Hi" ++ after).data := by
    simp [String.data_append]
  rw [← hd] at hmem
  revert hmem
  decide

/-! ## Dispatch -/

/-- Without dry run, `dispatch` is the loop over the recipients started with no calls and no
errors, also for the empty list. -/
theorem dispatch_live {σ R E : Type} (rs : List R) (text : String)
    (adapter : BackendAdapter σ R E) (st : σ) (continueOnErr : Bool) :
    dispatch rs text adapter st continueOnErr false =
      dispatchLoop adapter text continueOnErr rs st [] [] := by
  cases rs <;> simp [dispatch, dispatchLoop]

/-- Under dry run `dispatch` makes no call and succeeds. -/
theorem dispatch_dry {σ R E : Type} (rs : List R) (text : String)
    (adapter : BackendAdapter σ R E) (st : σ) (continueOnErr : Bool) :
    dispatch rs text adapter st continueOnErr true = ⟨st, [], .success⟩ := by
  cases rs <;> simp [dispatch, dryRunLoop_eq]

/-- C7: with `continueOnErr` false and `dryRun` false, for every configuration: if the
recipients are `before`, then `r`, then `after`, the adapter succeeds on all of `before` and
fails with `e` on `r`, then `Send` calls the adapter on `before` and `r` in that order and on
nothing else, and returns the failure holding the one pair of `r` and `e`; if the adapter
succeeds on all recipients, `Send` calls it on all of them in order and returns success.
A service built without options, ntfy or telegram, has `continueOnErr` false. -/
theorem C7_fail_fast :
    (∀ (σ R E : Type) (cfg : ServiceConfig σ R E) (st : σ) (subject message : String)
      (before after : List R) (r : R) (e : E),
      cfg.continueOnErr = false → cfg.dryRun = false →
      cfg.recipients = before ++ r :: after →
      allSucceed cfg.adapter (cfg.renderMessage subject message) st before = true →
      (cfg.adapter.sendOne (stateAfter cfg.adapter (cfg.renderMessage subject message) st before)
        r (cfg.renderMessage subject message)).2 = some e →
      Send cfg st subject message =
        ⟨(cfg.adapter.sendOne
            (stateAfter cfg.adapter (cfg.renderMessage subject message) st before)
            r (cfg.renderMessage subject message)).1,
          (before ++ [r]).map (fun x => (x, cfg.renderMessage subject message)),
          .failure [(r, e)]⟩) ∧
    (∀ (σ R E : Type) (cfg : ServiceConfig σ R E) (st : σ) (subject message : String),
      cfg.continueOnErr = false → cfg.dryRun = false →
      allSucceed cfg.adapter (cfg.renderMessage subject message) st cfg.recipients = true →
      Send cfg st subject message =
        ⟨stateAfter cfg.adapter (cfg.renderMessage subject message) st cfg.recipients,
          cfg.recipients.map (fun x => (x, cfg.renderMessage subject message)),
          .success⟩) ∧
    (∀ token : String, ∃ s, ntfy.New token [] = .ok s ∧ s.continueOnErr = false) ∧
    (∀ (BotErr NotifyErr : Type) (NewBotAPI : String → Except BotErr telegram.BotAPI)
      (asNotifyError : BotErr → NotifyErr) (token : String) (client : telegram.BotAPI),
      NewBotAPI token = .ok client →
      ∃ s, telegram.New NewBotAPI asNotifyError token [] = .ok s ∧
        s.continueOnErr = false) := by
  refine ⟨?_, ?_, fun token => ⟨_, rfl, rfl⟩, ?_⟩
  · intro σ R E cfg st subject message before after r e hc hd hrs hall hr
    simp only [Send, hc, hd, hrs, dispatch_live]
    rw [dispatchLoop_failfast_stop cfg.adapter _ before after r e st [] hall hr]
    simp
  · intro σ R E cfg st subject message hc hd hall
    simp only [Send, hc, hd, dispatch_live]
    rw [dispatchLoop_failfast_ok cfg.adapter _ cfg.recipients st [] hall]
    simp
  · intro BotErr NotifyErr NewBotAPI asNotifyError token client h
    exact ⟨_, telegram.New_of_client NewBotAPI asNotifyError token client [] h, rfl⟩

/-- Witness of C7: recipients `A`, `B`, `C`, the adapter failing on `B` only: two calls, for
`A` and `B`, and a failure that reports `B` alone; the same recipients with an adapter that
never fails: three calls and success; and a telegram service without options. -/
theorem C7_fail_fast_witness :
    ((stubConfig ["A", "B", "C"] ["B"] false false).continueOnErr = false ∧
      (stubConfig ["A", "B", "C"] ["B"] false false).dryRun = false ∧
      (stubConfig ["A", "B", "C"] ["B"] false false).recipients = ["A"] ++ "B" :: ["C"] ∧
      allSucceed (stubAdapter ["B"]) "s\n\nm" 0 ["A"] = true ∧
      ((stubAdapter ["B"]).sendOne (stateAfter (stubAdapter ["B"]) "s\n\nm" 0 ["A"])
        "B" "s\n\nm").2 = some "rejected B" ∧
      Send (stubConfig ["A", "B", "C"] ["B"] false false) 0 "s" "m" =
        ⟨2, [("A", "s\n\nm"), ("B", "s\n\nm")], .failure [("B", "rejected B")]⟩) ∧
    ((stubConfig ["A", "B", "C"] [] false false).continueOnErr = false ∧
      (stubConfig ["A", "B", "C"] [] false false).dryRun = false ∧
      allSucceed (stubAdapter []) "s\n\nm" 0 ["A", "B", "C"] = true ∧
      Send (stubConfig ["A", "B", "C"] [] false false) 0 "s" "m" =
        ⟨3, [("A", "s\n\nm"), ("B", "s\n\nm"), ("C", "s\n\nm")], .success⟩) ∧
    ((fun _ => .ok ⟨7⟩ : String → Except String telegram.BotAPI) "token" = .ok ⟨7⟩ ∧
      ∃ s, telegram.New (fun _ => .ok ⟨7⟩ : String → Except String telegram.BotAPI)
          (fun e => e) "token" [] = .ok s ∧ s.continueOnErr = false) :=
  ⟨⟨rfl, rfl, rfl, by decide, by decide,
      C7_fail_fast.1 Nat String String (stubConfig ["A", "B", "C"] ["B"] false false) 0 "s" "m"
        ["A"] ["C"] "B" "rejected B" rfl rfl rfl (by decide) (by decide)⟩,
    ⟨rfl, rfl, by decide,
      C7_fail_fast.2.1 Nat String String (stubConfig ["A", "B", "C"] [] false false) 0 "s" "m"
        rfl rfl (by decide)⟩,
    ⟨rfl, C7_fail_fast.2.2.2 String String (fun _ => .ok ⟨7⟩) (fun e => e) "token" ⟨7⟩ rfl⟩⟩

/-- C8: with `continueOnErr` true and `dryRun` false, for every renderer, adapter, recipient
list and adapter state, `Send` calls the adapter once on every recipient in registration
order, whatever failed before, and returns success when no call failed and otherwise the
failure holding the failing recipients with their errors in registration order; for an
adapter without state these are the recipients a filter selects. Recipients `A`, `B`, `C`
with only `B` failing: three calls, `B` reported. Recipients `A`, `B` both failing: both
reported, `A` first. -/
theorem C8_continue_on_error :
    (∀ (σ R E : Type) (render : String → String → String) (adapter : BackendAdapter σ R E)
      (recipients : List R) (st : σ) (subject message : String),
      Send { dryRun := false, continueOnErr := true, renderMessage := render,
             adapter := adapter, recipients := recipients } st subject message =
        ⟨stateAfter adapter (render subject message) st recipients,
          recipients.map (fun r => (r, render subject message)),
          if (failuresOf adapter (render subject message) st recipients).isEmpty then .success
          else .failure (failuresOf adapter (render subject message) st recipients)⟩) ∧
    (∀ (σ R E : Type) (render : String → String → String) (f : R → String → Option E)
      (recipients : List R) (st : σ) (subject message : String),
      Send { dryRun := false, continueOnErr := true, renderMessage := render,
             adapter := BackendAdapter.mk (fun s r t => (s, f r t)),
             recipients := recipients } st subject message =
        ⟨st, recipients.map (fun r => (r, render subject message)),
          if (recipients.filterMap
              (fun r => (f r (render subject message)).map (fun e => (r, e)))).isEmpty
          then .success
          else .failure (recipients.filterMap
            (fun r => (f r (render subject message)).map (fun e => (r, e))))⟩) ∧
    Send (stubConfig ["A", "B", "C"] ["B"] true false) 0 "s" "m" =
      ⟨3, [("A", "s\n\nm"), ("B", "s\n\nm"), ("C", "s\n\nm")],
        .failure [("B", "rejected B")]⟩ ∧
    Send (stubConfig ["A", "B"] ["A", "B"] true false) 0 "s" "m" =
      ⟨2, [("A", "s\n\nm"), ("B", "s\n\nm")],
        .failure [("A", "rejected A"), ("B", "rejected B")]⟩ := by
  have hgen : ∀ (σ R E : Type) (render : String → String → String)
      (adapter : BackendAdapter σ R E) (recipients : List R) (st : σ)
      (subject message : String),
      Send { dryRun := false, continueOnErr := true, renderMessage := render,
             adapter := adapter, recipients := recipients } st subject message =
        ⟨stateAfter adapter (render subject message) st recipients,
          recipients.map (fun r => (r, render subject message)),
          if (failuresOf adapter (render subject message) st recipients).isEmpty then .success
          else .failure (failuresOf adapter (render subject message) st recipients)⟩ := by
    intro σ R E render adapter recipients st subject message
    simp only [Send, dispatch_live, dispatchLoop_continue]
    simp
  refine ⟨hgen, ?_, by decide, by decide⟩
  intro σ R E render f recipients st subject message
  rw [hgen, failuresOf_stateless]
  have hst : ∀ (rs : List R) (s : σ),
      stateAfter (BackendAdapter.mk (fun s r t => (s, f r t))) (render subject message) s rs
        = s := by
    intro rs
    induction rs with
    | nil => intro s; rfl
    | cons r rest ih => intro s; exact ih s
  rw [hst]


/-- C9: with `dryRun` true, for every recipient list, text, adapter (one that always fails
included), adapter state and either value of `continueOnErr`, `dispatch` and `Send` make no
call of `sendOne`, leave the adapter state as it was and return success; so does `Send` on
the configuration of every telegram service whose `dryRun` field has been set. -/
theorem C9_dry_run_sends_nothing :
    (∀ (σ R E : Type) (recipients : List R) (text : String) (adapter : BackendAdapter σ R E)
      (st : σ) (continueOnErr : Bool),
      dispatch recipients text adapter st continueOnErr true = ⟨st, [], .success⟩) ∧
    (∀ (σ R E : Type) (render : String → String → String) (adapter : BackendAdapter σ R E)
      (recipients : List R) (continueOnErr : Bool) (st : σ) (subject message : String),
      Send { dryRun := true, continueOnErr := continueOnErr, renderMessage := render,
             adapter := adapter, recipients := recipients } st subject message =
        ⟨st, [], .success⟩) ∧
    (∀ (σ E : Type) (s : telegram.Service) (adapter : BackendAdapter σ Int E) (st : σ)
      (subject message : String),
      Send (telegram.Service.config { s with dryRun := true } adapter) st subject message =
        ⟨st, [], .success⟩) ∧
    (∀ (recipients : List String) (continueOnErr : Bool) (st : Nat),
      (Send (stubConfig recipients recipients continueOnErr true) st "s" "m").calls.length = 0 ∧
      (Send (stubConfig recipients recipients continueOnErr true) st "s" "m").outcome
        = .success) := by
  refine ⟨fun σ R E => dispatch_dry, ?_, ?_, ?_⟩
  · intro σ R E render adapter recipients continueOnErr st subject message
    simp only [Send, dispatch_dry]
  · intro σ E s adapter st subject message
    simp only [Send, telegram.Service.config, dispatch_dry]
  · intro recipients continueOnErr st
    simp [Send, stubConfig, dispatch_dry]

/-! ## Construction of an ntfy service -/

theorem ntfy.applyOpts_append (a b : List ntfy.Option) (s : ntfy.Service) :
    ntfy.applyOpts (a ++ b) s =
      match ntfy.applyOpts a s with
      | .error p => .error p
      | .ok s1 => ntfy.applyOpts b s1 := by
  induction a generalizing s with
  | nil => rfl
  | cons o rest ih =>
    simp only [List.cons_append, ntfy.applyOpts]
    cases o s with
    | error p => rfl
    | ok s1 => exact ih s1

theorem ntfy.applyOpts_eq_foldlM (opts : List ntfy.Option) (s : ntfy.Service) :
    ntfy.applyOpts opts s = opts.foldlM (fun acc opt => opt acc) s := by
  induction opts generalizing s with
  | nil => rfl
  | cons o rest ih =>
    simp only [ntfy.applyOpts, List.foldlM_cons]
    cases h : o s with
    | error p => rfl
    | ok s1 => exact ih s1

/-- The log statement on a service whose logger is nil panics. -/
theorem ntfy.Service.logDebug_nil (s : ntfy.Service) (h : s.logger = .nil) :
    s.logDebug = .error .nilDereference := by
  simp [ntfy.Service.logDebug, h, LoggerValue.Debug]

/-- The log statement on a service that has a logger returns the service. -/
theorem ntfy.Service.logDebug_of (s : ntfy.Service) (l : Logger) (h : s.logger = .of l) :
    s.logDebug = .ok s := by
  simp [ntfy.Service.logDebug, h, LoggerValue.Debug]

/-- The log statement returns exactly on a service that has a logger, and returns it. -/
theorem ntfy.Service.logDebug_eq_ok (s s1 : ntfy.Service) :
    s.logDebug = .ok s1 ↔ s1 = s ∧ ∃ l, s.logger = .of l := by
  cases hl : s.logger with
  | nil => simp [ntfy.Service.logDebug, hl, LoggerValue.Debug]
  | of l =>
    simp only [ntfy.Service.logDebug, hl, LoggerValue.Debug, Except.ok.injEq]
    constructor
    · intro h
      exact ⟨h.symm, l, rfl⟩
    · intro h
      exact h.1.symm

/-- What an exported option that returns has done: it ran on a service with a logger or is
`WithLogger` with a logger; the service it returns has a logger and the token it had; its
priority and name are the ones it had or the argument of the call. -/
theorem ntfy.OptionCall.toOption_ok (c : ntfy.OptionCall) (s s1 : ntfy.Service)
    (h : c.toOption s = .ok s1) :
    (∃ l, s1.logger = .of l) ∧ s1.token = s.token ∧ c.isNilLogger = false ∧
      (c.setsLogger = true ∨ ∃ l, s.logger = .of l) ∧
      (s1.priority = s.priority ∨ s1.priority ∈ c.priorityArg) ∧
      (∀ p ∈ c.priorityArg, s1.priority = p) ∧
      (s1.name = s.name ∨ s1.name ∈ c.nameArg) ∧
      (∀ n ∈ c.nameArg, s1.name = n) := by
  cases c
  case withLogger lg =>
    cases lg with
    | nil => simp [ntfy.OptionCall.toOption, ntfy.WithLogger, LoggerValue.With] at h
    | of l0 =>
      simp only [ntfy.OptionCall.toOption, ntfy.WithLogger, LoggerValue.With,
        ntfy.Service.logDebug_eq_ok] at h
      obtain ⟨rfl, l, hl⟩ := h
      exact ⟨⟨l, hl⟩, rfl, rfl, Or.inl rfl, Or.inl rfl, by simp [ntfy.OptionCall.priorityArg],
        Or.inl rfl, by simp [ntfy.OptionCall.nameArg]⟩
  all_goals
    simp only [ntfy.OptionCall.toOption, ntfy.WithClient, ntfy.WithRecipients,
      ntfy.WithName, ntfy.WithMessageRenderer, ntfy.WithDryRun, ntfy.WithContinueOnErr,
      ntfy.WithAPIBaseURL, ntfy.WithParseMode, ntfy.WithPriority, ntfy.WithTags, ntfy.WithIcon,
      ntfy.WithDelay, ntfy.WithClickAction, ntfy.Service.logDebug_eq_ok] at h
    obtain ⟨rfl, l, hl⟩ := h
    refine ⟨⟨l, hl⟩, rfl, rfl, Or.inr ⟨l, hl⟩, ?_, ?_, ?_, ?_⟩ <;>
      simp [ntfy.OptionCall.priorityArg, ntfy.OptionCall.nameArg]

/-- An exported option returns when it runs on a service with a logger and is not
`WithLogger` of nil. -/
theorem ntfy.OptionCall.toOption_of_logger (c : ntfy.OptionCall) (s : ntfy.Service)
    (l : Logger) (hs : s.logger = .of l) (hc : c.isNilLogger = false) :
    ∃ s1, c.toOption s = .ok s1 := by
  cases c
  case withLogger lg =>
    cases lg with
    | nil => simp [ntfy.OptionCall.isNilLogger] at hc
    | of l0 =>
      exact ⟨{ s with logger := .of (l0.With "service" s.Name) },
        ntfy.Service.logDebug_of { s with logger := .of (l0.With "service" s.Name) }
          (l0.With "service" s.Name) rfl⟩
  all_goals exact ⟨_, ntfy.Service.logDebug_of _ l hs⟩

/-- An exported option that is `WithLogger` with a logger returns on every service. -/
theorem ntfy.OptionCall.toOption_of_setsLogger (c : ntfy.OptionCall) (s : ntfy.Service)
    (hc : c.setsLogger = true) : ∃ s1, c.toOption s = .ok s1 := by
  cases c
  case withLogger lg =>
    cases lg with
    | nil => simp [ntfy.OptionCall.setsLogger] at hc
    | of l0 =>
      exact ⟨{ s with logger := .of (l0.With "service" s.Name) },
        ntfy.Service.logDebug_of { s with logger := .of (l0.With "service" s.Name) }
          (l0.With "service" s.Name) rfl⟩
  all_goals simp [ntfy.OptionCall.setsLogger] at hc

/-- The only panic of an exported option is the nil dereference. -/
theorem ntfy.OptionCall.toOption_error (c : ntfy.OptionCall) (s : ntfy.Service) (p : Panic)
    (h : c.toOption s = .error p) : p = .nilDereference := by
  cases c
  case withLogger lg =>
    cases lg with
    | nil =>
      simp only [ntfy.OptionCall.toOption, ntfy.WithLogger, LoggerValue.With,
        Except.error.injEq] at h
      exact h.symm
    | of l0 =>
      simp [ntfy.OptionCall.toOption, ntfy.WithLogger, LoggerValue.With,
        ntfy.Service.logDebug, LoggerValue.Debug] at h
  all_goals
    cases hl : s.logger <;>
      simp [ntfy.OptionCall.toOption, ntfy.WithClient, ntfy.WithRecipients,
        ntfy.WithName, ntfy.WithMessageRenderer, ntfy.WithDryRun, ntfy.WithContinueOnErr,
        ntfy.WithAPIBaseURL, ntfy.WithParseMode, ntfy.WithPriority, ntfy.WithTags,
        ntfy.WithIcon, ntfy.WithDelay, ntfy.WithClickAction, ntfy.Service.logDebug,
        LoggerValue.Debug, hl] at h
    exact h.symm

/-- `New` runs the options on its literal. -/
theorem ntfy.New_eq (token : String) (opts : List ntfy.Option) :
    ntfy.New token opts = ntfy.applyOpts opts (ntfy.newLiteral token) := by
  simp only [ntfy.New, ntfy.newLiteral]
  split <;> simp_all

theorem ntfy.applyOpts_cons_ok (o : ntfy.Option) (rest : List ntfy.Option)
    (s s2 : ntfy.Service) :
    ntfy.applyOpts (o :: rest) s = .ok s2 ↔
      ∃ s1, o s = .ok s1 ∧ ntfy.applyOpts rest s1 = .ok s2 := by
  simp only [ntfy.applyOpts]
  cases o s with
  | error p => simp
  | ok s1 => simp

theorem ntfy.applyOpts_append_ok (a b : List ntfy.Option) (s s2 : ntfy.Service) :
    ntfy.applyOpts (a ++ b) s = .ok s2 ↔
      ∃ s1, ntfy.applyOpts a s = .ok s1 ∧ ntfy.applyOpts b s1 = .ok s2 := by
  rw [ntfy.applyOpts_append]
  cases ntfy.applyOpts a s with
  | error p => simp
  | ok s1 => simp

/-- Exported options that do not pass a nil logger all return when they start on a service
that has a logger. -/
theorem ntfy.applyOpts_calls_of_logger (calls : List ntfy.OptionCall) (s : ntfy.Service)
    (l : Logger) (hs : s.logger = .of l)
    (h : calls.all (fun c => !c.isNilLogger) = true) :
    ∃ s1, ntfy.applyOpts (calls.map ntfy.OptionCall.toOption) s = .ok s1 := by
  induction calls generalizing s l with
  | nil => exact ⟨s, rfl⟩
  | cons c rest ih =>
    simp only [List.all_cons, Bool.and_eq_true, Bool.not_eq_true'] at h
    obtain ⟨s1, h1⟩ := ntfy.OptionCall.toOption_of_logger c s l hs h.1
    obtain ⟨l1, hl1⟩ := (ntfy.OptionCall.toOption_ok c s s1 h1).1
    obtain ⟨s2, h2⟩ := ih s1 l1 hl1 (by simpa using h.2)
    exact ⟨s2, (ntfy.applyOpts_cons_ok _ _ s s2).mpr ⟨s1, h1, h2⟩⟩

/-- Exported options that all returned passed no nil logger. -/
theorem ntfy.applyOpts_calls_ok_all (calls : List ntfy.OptionCall) (s s2 : ntfy.Service)
    (h : ntfy.applyOpts (calls.map ntfy.OptionCall.toOption) s = .ok s2) :
    calls.all (fun c => !c.isNilLogger) = true := by
  induction calls generalizing s with
  | nil => rfl
  | cons c rest ih =>
    obtain ⟨s1, h1, h2⟩ := (ntfy.applyOpts_cons_ok _ _ s s2).mp h
    simp only [List.all_cons, Bool.and_eq_true, Bool.not_eq_true']
    exact ⟨(ntfy.OptionCall.toOption_ok c s s1 h1).2.2.1, ih s1 h2⟩

/-- The only panic of a run of exported options is the nil dereference. -/
theorem ntfy.applyOpts_calls_error (calls : List ntfy.OptionCall) (s : ntfy.Service)
    (p : Panic) (h : ntfy.applyOpts (calls.map ntfy.OptionCall.toOption) s = .error p) :
    p = .nilDereference := by
  induction calls generalizing s with
  | nil => simp [ntfy.applyOpts] at h
  | cons c rest ih =>
    simp only [List.map_cons, ntfy.applyOpts] at h
    cases h1 : c.toOption s with
    | error q =>
      rw [h1] at h
      simp only [Except.error.injEq] at h
      rw [← h]
      exact ntfy.OptionCall.toOption_error c s q h1
    | ok s1 =>
      rw [h1] at h
      exact ih s1 h

/-- A property that every exported option of a list keeps whenever it returns holds of the
service the run returns. -/
theorem ntfy.applyOpts_calls_invariant (P : ntfy.Service → Prop)
    (calls : List ntfy.OptionCall)
    (hP : ∀ c ∈ calls, ∀ s s1, P s → c.toOption s = .ok s1 → P s1)
    (s s2 : ntfy.Service) (hs : P s)
    (h : ntfy.applyOpts (calls.map ntfy.OptionCall.toOption) s = .ok s2) : P s2 := by
  induction calls generalizing s with
  | nil =>
    simp only [List.map_nil, ntfy.applyOpts, Except.ok.injEq] at h
    exact h ▸ hs
  | cons c rest ih =>
    obtain ⟨s1, h1, h2⟩ := (ntfy.applyOpts_cons_ok _ _ s s2).mp h
    exact ih (fun c1 hc1 => hP c1 (List.mem_cons_of_mem _ hc1)) s1
      (hP c (List.mem_cons_self _ _) s s1 hs h1) h2

/-- `New` returns on exported options exactly when the list is empty or starts with a
`WithLogger` of a logger and passes no nil logger later. -/
theorem ntfy.New_calls_ok_iff (token : String) (calls : List ntfy.OptionCall) :
    (∃ s, ntfy.New token (calls.map ntfy.OptionCall.toOption) = .ok s) ↔
      ntfy.loggerFirst calls = true := by
  rw [ntfy.New_eq]
  cases calls with
  | nil => simp [ntfy.applyOpts, ntfy.loggerFirst]
  | cons c rest =>
    simp only [ntfy.loggerFirst, Bool.and_eq_true, List.map_cons]
    constructor
    · rintro ⟨s2, h⟩
      obtain ⟨s1, h1, h2⟩ := (ntfy.applyOpts_cons_ok _ _ _ s2).mp h
      refine ⟨?_, ntfy.applyOpts_calls_ok_all rest s1 s2 h2⟩
      rcases (ntfy.OptionCall.toOption_ok c _ s1 h1).2.2.2.1 with hc | ⟨l, hl⟩
      · exact hc
      · simp [ntfy.newLiteral] at hl
    · rintro ⟨hc, hrest⟩
      obtain ⟨s1, h1⟩ := ntfy.OptionCall.toOption_of_setsLogger c (ntfy.newLiteral token) hc
      obtain ⟨l1, hl1⟩ := (ntfy.OptionCall.toOption_ok c _ s1 h1).1
      obtain ⟨s2, h2⟩ := ntfy.applyOpts_calls_of_logger rest s1 l1 hl1 hrest
      exact ⟨s2, (ntfy.applyOpts_cons_ok _ _ _ s2).mpr ⟨s1, h1, h2⟩⟩

/-- On every other list of exported options `New` panics with a nil dereference. -/
theorem ntfy.New_calls_error (token : String) (calls : List ntfy.OptionCall)
    (h : ntfy.loggerFirst calls = false) :
    ntfy.New token (calls.map ntfy.OptionCall.toOption) = .error .nilDereference := by
  cases hn : ntfy.New token (calls.map ntfy.OptionCall.toOption) with
  | ok s =>
    have := (ntfy.New_calls_ok_iff token calls).mp ⟨s, hn⟩
    rw [h] at this
    exact absurd this (by decide)
  | error p =>
    rw [ntfy.New_eq] at hn
    rw [ntfy.applyOpts_calls_error calls _ p hn]

/-- When the list of exported options with one more at its end is one `New` returns on, `New`
returns on the list without it, the last option returns on that service, and `New` on the
whole list returns what the last option returned. -/
theorem ntfy.New_calls_snoc (token : String) (calls : List ntfy.OptionCall)
    (c : ntfy.OptionCall) (h : ntfy.loggerFirst (calls ++ [c]) = true) :
    ∃ s0 s, ntfy.New token (calls.map ntfy.OptionCall.toOption) = .ok s0 ∧
      c.toOption s0 = .ok s ∧
      ntfy.New token ((calls ++ [c]).map ntfy.OptionCall.toOption) = .ok s := by
  obtain ⟨s, hs⟩ := (ntfy.New_calls_ok_iff token (calls ++ [c])).mpr h
  have hs2 := hs
  rw [ntfy.New_eq, List.map_append, ntfy.applyOpts_append_ok] at hs2
  obtain ⟨s0, h0, h1⟩ := hs2
  obtain ⟨s1, h2, h3⟩ := (ntfy.applyOpts_cons_ok _ _ s0 s).mp h1
  simp only [ntfy.applyOpts, Except.ok.injEq] at h3
  subst h3
  exact ⟨s0, s1, by rw [ntfy.New_eq]; exact h0, h2, hs⟩

/-- C6, what the code does: `New` with `WithRecipients a` as its only option panics, for
every token and list `a`, on the nil logger. When the exported options given to `New` start
with `WithLogger` of a logger, pass no nil logger and end with `WithRecipients a`, `New`
returns a service whose recipient list is `a`, and after `AddRecipients b` it is `a`
followed by `b`. -/
theorem C6_with_recipients_then_add :
    (∀ (token : String) (a : List String),
      ntfy.New token [ntfy.WithRecipients a] = .error .nilDereference) ∧
    (∀ (token : String) (calls : List ntfy.OptionCall) (a b : List String),
      ntfy.loggerFirst (calls ++ [ntfy.OptionCall.withRecipients a]) = true →
      ∃ s, ntfy.New token ((calls ++ [ntfy.OptionCall.withRecipients a]).map ntfy.OptionCall.toOption)
          = .ok s ∧
        s.topics = a ∧ (s.AddRecipients b).topics = a ++ b) := by
  refine ⟨fun token a => rfl, ?_⟩
  intro token calls a b h
  obtain ⟨s0, s, -, h1, h2⟩ := ntfy.New_calls_snoc token calls _ h
  simp only [ntfy.OptionCall.toOption, ntfy.WithRecipients,
    ntfy.Service.logDebug_eq_ok] at h1
  obtain ⟨hs, -⟩ := h1
  refine ⟨s, h2, ?_, ?_⟩
  · rw [hs]
  · rw [hs]
    rfl

/-- Witness of C6: a logger, a first recipient list that is overwritten, then the list
`a`. -/
theorem C6_with_recipients_then_add_witness :
    ntfy.loggerFirst ([ntfy.OptionCall.withLogger (LoggerValue.of nopadapter.NewAdapter), ntfy.OptionCall.withRecipients ["old"]] ++
      [ntfy.OptionCall.withRecipients ["a1", "a2"]]) = true ∧
    ∃ s, ntfy.New "token"
        (([ntfy.OptionCall.withLogger (LoggerValue.of nopadapter.NewAdapter), ntfy.OptionCall.withRecipients ["old"]] ++
          [ntfy.OptionCall.withRecipients ["a1", "a2"]]).map ntfy.OptionCall.toOption) = .ok s ∧
      s.topics = ["a1", "a2"] ∧
      (s.AddRecipients ["a1", "b"]).topics = ["a1", "a2"] ++ ["a1", "b"] :=
  ⟨rfl, C6_with_recipients_then_add.2 "token"
    [ntfy.OptionCall.withLogger (LoggerValue.of nopadapter.NewAdapter), ntfy.OptionCall.withRecipients ["old"]] ["a1", "a2"]
    ["a1", "b"] rfl⟩

/-- C4, what the code does: for every token, `Name()` of a service built by `New` without
options is `ntfy` for the ntfy backend and, when the bot client can be created, `telegram`
for the telegram backend. `New` with `WithName n` as its only option panics, for every token
and `n`, on the nil logger. When the exported options given to `New` start with `WithLogger`
of a logger and pass no nil logger, `Name()` returns the argument of the last `WithName`
among them. -/
theorem C4_name_default_and_override :
    (∀ token : String, ∃ s, ntfy.New token [] = .ok s ∧ s.Name = "ntfy") ∧
    (∀ (BotErr NotifyErr : Type) (NewBotAPI : String → Except BotErr telegram.BotAPI)
      (asNotifyError : BotErr → NotifyErr) (token : String) (client : telegram.BotAPI),
      NewBotAPI token = .ok client →
      ∃ s, telegram.New NewBotAPI asNotifyError token [] = .ok s ∧ s.Name = "telegram") ∧
    (∀ token n : String, ntfy.New token [ntfy.WithName n] = .error .nilDereference) ∧
    (∀ (token n : String) (earlier later : List ntfy.OptionCall),
      (∀ c ∈ later, c.nameArg = []) →
      ntfy.loggerFirst (earlier ++ ntfy.OptionCall.withName n :: later) = true →
      ∃ s, ntfy.New token ((earlier ++ ntfy.OptionCall.withName n :: later).map ntfy.OptionCall.toOption)
          = .ok s ∧ s.Name = n) := by
  refine ⟨fun token => ⟨_, rfl, rfl⟩, ?_, fun token n => rfl, ?_⟩
  · intro BotErr NotifyErr NewBotAPI asNotifyError token client h
    exact ⟨_, telegram.New_of_client NewBotAPI asNotifyError token client [] h, rfl⟩
  · intro token n earlier later hlater h
    obtain ⟨s, hs⟩ := (ntfy.New_calls_ok_iff token _).mpr h
    refine ⟨s, hs, ?_⟩
    rw [ntfy.New_eq, List.map_append, ntfy.applyOpts_append_ok] at hs
    obtain ⟨s0, -, h1⟩ := hs
    obtain ⟨s1, h2, h3⟩ := (ntfy.applyOpts_cons_ok _ _ s0 s).mp h1
    have hn : s1.name = n :=
      (ntfy.OptionCall.toOption_ok (ntfy.OptionCall.withName n) s0 s1 h2).2.2.2.2.2.2.2 n
        (by simp [ntfy.OptionCall.nameArg])
    refine ntfy.applyOpts_calls_invariant (fun x => x.Name = n) later ?_ s1 s hn h3
    intro c hc x x1 hx hx1
    rcases (ntfy.OptionCall.toOption_ok c x x1 hx1).2.2.2.2.2.2.1 with hsame | hmem
    · exact hsame.trans hx
    · rw [hlater c hc] at hmem
      simp at hmem

/-- Witness of C4: a logger, then three `WithName` calls, the last of them followed by
options that do not set the name: the last name wins; and a telegram service without
options, from a bot constructor that accepts every token. -/
theorem C4_name_default_and_override_witness :
    ((∀ c ∈ [ntfy.OptionCall.withPriority 4, ntfy.OptionCall.withDryRun true],
        c.nameArg = []) ∧
      ntfy.loggerFirst ([ntfy.OptionCall.withLogger (LoggerValue.of nopadapter.NewAdapter), ntfy.OptionCall.withName "first",
        ntfy.OptionCall.withTags ["x"], ntfy.OptionCall.withName ""] ++ ntfy.OptionCall.withName "last" ::
        [ntfy.OptionCall.withPriority 4, ntfy.OptionCall.withDryRun true]) = true ∧
      ∃ s, ntfy.New "token" (([ntfy.OptionCall.withLogger (LoggerValue.of nopadapter.NewAdapter), ntfy.OptionCall.withName "first",
          ntfy.OptionCall.withTags ["x"], ntfy.OptionCall.withName ""] ++ ntfy.OptionCall.withName "last" ::
          [ntfy.OptionCall.withPriority 4, ntfy.OptionCall.withDryRun true]).map ntfy.OptionCall.toOption) = .ok s ∧
        s.Name = "last") ∧
    ((fun _ => .ok ⟨7⟩ : String → Except String telegram.BotAPI) "token" = .ok ⟨7⟩ ∧
      ∃ s, telegram.New (fun _ => .ok ⟨7⟩ : String → Except String telegram.BotAPI)
          (fun e => e) "token" [] = .ok s ∧ s.Name = "telegram") :=
  ⟨⟨by simp [ntfy.OptionCall.nameArg], rfl,
      C4_name_default_and_override.2.2.2 "token" "last"
        [ntfy.OptionCall.withLogger (LoggerValue.of nopadapter.NewAdapter), ntfy.OptionCall.withName "first", ntfy.OptionCall.withTags ["x"],
          ntfy.OptionCall.withName ""]
        [ntfy.OptionCall.withPriority 4, ntfy.OptionCall.withDryRun true] (by simp [ntfy.OptionCall.nameArg]) rfl⟩,
    ⟨rfl, C4_name_default_and_override.2.1 String String (fun _ => .ok ⟨7⟩) (fun e => e)
      "token" ⟨7⟩ rfl⟩⟩

/-- C5 as stated fails: `New` with a logger and then `WithPriority 9` returns a service
whose priority is 9, outside the range 1 to 5. -/
theorem C5_priority_out_of_range :
    ∃ s, ntfy.New "token"
        [ntfy.WithLogger (LoggerValue.of nopadapter.NewAdapter), ntfy.WithPriority 9] = .ok s ∧
      ¬ (1 ≤ s.priority ∧ s.priority ≤ 5) :=
  ⟨_, rfl, by decide⟩

/-- C5, amended: the five priority constants equal 1, 2, 3, 4, 5; a service built by `New`
without options has priority 3; a service that `New` returns from exported options the last
of which is `WithPriority p` has priority `p`, whatever integer it is; and a service that
`New` returns from exported options has its priority within 1 to 5 whenever every argument
passed to `WithPriority` is. -/
theorem C5_priority_constants_default_and_range :
    (ntfy.PriorityMin = 1 ∧ ntfy.PriorityLow = 2 ∧ ntfy.PriorityDefault = 3 ∧
      ntfy.PriorityHigh = 4 ∧ ntfy.PriorityMax = 5) ∧
    (∀ token : String, ∃ s, ntfy.New token [] = .ok s ∧ s.priority = 3) ∧
    (∀ (token : String) (calls : List ntfy.OptionCall) (p : ntfy.Priority) (s : ntfy.Service),
      ntfy.New token ((calls ++ [ntfy.OptionCall.withPriority p]).map
        ntfy.OptionCall.toOption) = .ok s →
      s.priority = p) ∧
    (∀ (token : String) (calls : List ntfy.OptionCall) (s : ntfy.Service),
      ntfy.New token (calls.map ntfy.OptionCall.toOption) = .ok s →
      (∀ c ∈ calls, ∀ p ∈ c.priorityArg, 1 ≤ p ∧ p ≤ 5) →
      1 ≤ s.priority ∧ s.priority ≤ 5) := by
  refine ⟨by decide, fun token => ⟨_, rfl, rfl⟩, ?_, ?_⟩
  · intro token calls p s hs
    rw [ntfy.New_eq, List.map_append, ntfy.applyOpts_append_ok] at hs
    obtain ⟨s0, -, h1⟩ := hs
    obtain ⟨s1, h2, h3⟩ := (ntfy.applyOpts_cons_ok _ _ s0 s).mp h1
    simp only [ntfy.applyOpts, Except.ok.injEq] at h3
    subst h3
    exact (ntfy.OptionCall.toOption_ok (ntfy.OptionCall.withPriority p) s0 s1 h2).2.2.2.2.2.1 p
      (by simp [ntfy.OptionCall.priorityArg])
  · intro token calls s hs hcalls
    rw [ntfy.New_eq] at hs
    refine ntfy.applyOpts_calls_invariant (fun x => 1 ≤ x.priority ∧ x.priority ≤ 5) calls ?_
      (ntfy.newLiteral token) s (by show (1 : Int) ≤ 2 + 1 ∧ (2 : Int) + 1 ≤ 5; decide) hs
    intro c hc x x1 hx hx1
    rcases (ntfy.OptionCall.toOption_ok c x x1 hx1).2.2.2.2.1 with h | h
    · simpa only [h] using hx
    · exact hcalls c hc _ h

/-- Witness of C5, amended: a logger, then the priorities 5 and 1 among other options; and a
logger, then the priority 9 at the end. -/
theorem C5_priority_constants_default_and_range_witness :
    ((∀ c ∈ [ntfy.OptionCall.withLogger (LoggerValue.of nopadapter.NewAdapter),
          ntfy.OptionCall.withPriority ntfy.PriorityMax, ntfy.OptionCall.withName "n",
          ntfy.OptionCall.withPriority ntfy.PriorityMin],
        ∀ p ∈ c.priorityArg, 1 ≤ p ∧ p ≤ 5) ∧
      ∃ s, ntfy.New "token" ([ntfy.OptionCall.withLogger (LoggerValue.of nopadapter.NewAdapter),
          ntfy.OptionCall.withPriority ntfy.PriorityMax, ntfy.OptionCall.withName "n",
          ntfy.OptionCall.withPriority ntfy.PriorityMin].map ntfy.OptionCall.toOption)
          = .ok s ∧
        1 ≤ s.priority ∧ s.priority ≤ 5) ∧
    (∃ s, ntfy.New "token" (([ntfy.OptionCall.withLogger (LoggerValue.of nopadapter.NewAdapter),
          ntfy.OptionCall.withPriority 2] ++ [ntfy.OptionCall.withPriority 9]).map
          ntfy.OptionCall.toOption) = .ok s ∧
      s.priority = 9) :=
  ⟨⟨by simp [ntfy.OptionCall.priorityArg, ntfy.PriorityMax, ntfy.PriorityMin],
      { ntfy.newLiteral "token" with
        logger := LoggerValue.of ⟨[("service", "ntfy")]⟩, name := "n", priority := 1 },
      rfl,
      C5_priority_constants_default_and_range.2.2.2 "token"
        [ntfy.OptionCall.withLogger (LoggerValue.of nopadapter.NewAdapter),
          ntfy.OptionCall.withPriority ntfy.PriorityMax, ntfy.OptionCall.withName "n",
          ntfy.OptionCall.withPriority ntfy.PriorityMin]
        { ntfy.newLiteral "token" with
          logger := LoggerValue.of ⟨[("service", "ntfy")]⟩, name := "n", priority := 1 }
        rfl (by simp [ntfy.OptionCall.priorityArg, ntfy.PriorityMax, ntfy.PriorityMin])⟩,
    ⟨{ ntfy.newLiteral "token" with
        logger := LoggerValue.of ⟨[("service", "ntfy")]⟩, priority := 9 },
      rfl,
      C5_priority_constants_default_and_range.2.2.1 "token"
        [ntfy.OptionCall.withLogger (LoggerValue.of nopadapter.NewAdapter),
          ntfy.OptionCall.withPriority 2] 9
        { ntfy.newLiteral "token" with
          logger := LoggerValue.of ⟨[("service", "ntfy")]⟩, priority := 9 }
        rfl⟩⟩

/-- C10, what the code does: for every token and every list of options, `New` runs the
options one after another, in argument order, on the service holding the token and the
defaults (name `ntfy`, base URL `https://ntfy.sh/`, parse mode `text/plain`, priority 3, the
default client and renderer, no recipients, no tags, empty icon, delay and click action, and
a nil logger), and a panic of an option ends it. Without options it returns that service.
With `WithName n` as the only option it panics on the nil logger. On exported options it
returns, with the token as given, exactly when the list is empty or starts with `WithLogger`
of a logger and passes no nil logger later, and it panics on every other list. -/
theorem C10_new_runs_options :
    (∀ (token : String) (opts : List ntfy.Option),
      ntfy.New token opts = opts.foldlM (fun s opt => opt s)
        ({ client := http.DefaultClient, topics := [], name := "ntfy", token := token,
           renderMessage := ntfy.defaultMessageRenderer, apiBaseURL := "https://ntfy.sh/",
           parseMode := "text/plain", priority := 3, tags := [], icon := "", delay := "",
           clickAction := "", logger := LoggerValue.nil, dryRun := false,
           continueOnErr := false } : ntfy.Service)) ∧
    (∀ token : String, ∃ s, ntfy.New token [] = .ok s ∧ s.token = token) ∧
    (∀ token n : String, ntfy.New token [ntfy.WithName n] = .error .nilDereference) ∧
    (∀ (token : String) (calls : List ntfy.OptionCall),
      if ntfy.loggerFirst calls then
        ∃ s, ntfy.New token (calls.map ntfy.OptionCall.toOption) = .ok s ∧ s.token = token
      else
        ntfy.New token (calls.map ntfy.OptionCall.toOption) = .error .nilDereference) := by
  refine ⟨?_, fun token => ⟨_, rfl, rfl⟩, fun token n => rfl, ?_⟩
  · intro token opts
    rw [ntfy.New_eq, ntfy.applyOpts_eq_foldlM]
    rfl
  · intro token calls
    cases h : ntfy.loggerFirst calls with
    | false =>
      simp only [Bool.false_eq_true, if_false]
      exact ntfy.New_calls_error token calls h
    | true =>
      simp only [if_true]
      obtain ⟨s, hs⟩ := (ntfy.New_calls_ok_iff token calls).mpr h
      refine ⟨s, hs, ?_⟩
      rw [ntfy.New_eq] at hs
      refine ntfy.applyOpts_calls_invariant (fun x => x.token = token) calls ?_
        (ntfy.newLiteral token) s rfl hs
      intro c _ x x1 hx hx1
      exact (ntfy.OptionCall.toOption_ok c x x1 hx1).2.1.trans hx
